import Mathlib

/-!
Verification of `loadData`: fetch, join, aggregate, render.

A shallow embedding of `loadData` from `yourJsFile.js` and the properties of the
dataset it hands to the table module.

Modelling conventions.

* JavaScript arrays are lists. Record ids are integers.
* A `count` is a finite number, modelled exactly as a rational; rounding of IEEE
  doubles is not modelled. The result of a division is a `Num`, which keeps the
  non-finite results `NaN` and `±Infinity` of a division by zero.
* `String.prototype.localeCompare` and `Number::toString` for large values belong
  to the host; they are parameters (`localeCompare`, `numberToString`).
* A promise is modelled by its settlement: `Except.ok` for a fulfilled promise,
  `Except.error` for a rejected one. `loadData` returns its own settlement together
  with the list of observable calls it made (table module, console).
* The inputs are well-formed: both collections are arrays of records with the fields
  of the data model, and `dataAPI()`, `getNames()`, `getCounts()` and `tableModule()`
  do not throw synchronously. An exception of `instance` is part of the model.
-/

namespace LoadData

/-! ## Data model -/

/-- A thrown or rejected JavaScript value. -/
abbrev Err := String

/-- An item resolved by `getNames()`. -/
structure NameRecord where
  id : Int
  name : String
  deriving DecidableEq, Repr

/-- An item resolved by `getCounts()`. -/
structure CountRecord where
  id : Int
  count : ℚ
  deriving DecidableEq, Repr

/-- A JavaScript number as produced by arithmetic on finite values: a finite value,
`NaN`, or an infinity with its sign. -/
inductive Num where
  | fin (q : ℚ)
  | nan
  | inf (negative : Bool)
  deriving DecidableEq, Repr

/-- The object literal built by the `.map` callback of `loadData` (lines 40-45). -/
structure JoinedRecord where
  id : Int
  name : String
  count : ℚ
  percentOfTotal : Num
  deriving DecidableEq, Repr

/-! ## Numbers -/

/-- The operator `/` on two finite numbers: a zero divisor gives `NaN` for a zero
dividend and an infinity with the sign of the dividend otherwise. The divisor of
`loadData` is the result of a sum that starts at `+0`, so a zero divisor is `+0`. -/
def jsDiv (a b : ℚ) : Num :=
  if b = 0 then
    if a = 0 then Num.nan else Num.inf (decide (a < 0))
  else Num.fin (a / b)

/-- The operator `*` with a finite right operand. -/
def Num.mul (x : Num) (k : ℚ) : Num :=
  match x with
  | Num.fin q => Num.fin (q * k)
  | Num.nan => Num.nan
  | Num.inf s => if k = 0 then Num.nan else Num.inf (xor s (decide (k < 0)))

/-- Steps 8-10 of `Number.prototype.toFixed` on the chosen integer `n`: the decimal
digits of `n`, left-padded with zeros to `f + 1` digits, with a point before the
last `f` digits. -/
def toFixedDigits (f n : Nat) : List Char :=
  let m := Nat.toDigits 10 n
  if f ≠ 0 then
    let m := if m.length ≤ f then List.replicate (f + 1 - m.length) '0' ++ m else m
    let k := m.length
    m.take (k - f) ++ '.' :: m.drop (k - f)
  else m

/-- The method `Number.prototype.toFixed(f)`. A non-finite value prints as its name.
A finite value `x` with `|x| < 10^21` prints the integer `n` nearest to `x * 10^f`
(the larger one on a tie) through `toFixedDigits`, after the sign. For
`|x| ≥ 10^21` the host's `numberToString` is used. -/
def toFixed (numberToString : ℚ → String) (x : Num) (f : Nat) : String :=
  match x with
  | Num.nan => "NaN"
  | Num.inf false => "Infinity"
  | Num.inf true => "-Infinity"
  | Num.fin q =>
    let s := if q < 0 then "-" else ""
    let a := if q < 0 then -q else q
    if (10 : ℚ) ^ 21 ≤ a then s ++ numberToString a
    else s ++ String.mk (toFixedDigits f (Int.toNat (Rat.floor (a * (10 : ℚ) ^ f + 1 / 2))))

/-! ## The name lookup (`Map`) -/

/-- A JavaScript `Map` from ids to name records: its entries in insertion order,
with at most one entry for a key. -/
abbrev NamesMap := List (Int × NameRecord)

/-- The method `Map.prototype.set`: an existing key keeps its position and takes
the new value; a new key is appended. -/
def NamesMap.set : NamesMap → Int → NameRecord → NamesMap
  | [], k, v => [(k, v)]
  | (k', v') :: rest, k, v =>
    if k' = k then (k, v) :: rest else (k', v') :: NamesMap.set rest k v

/-- The method `Map.prototype.has`. -/
def NamesMap.has (m : NamesMap) (k : Int) : Bool :=
  m.any (fun e => e.1 == k)

/-- The method `Map.prototype.get`; `none` stands for `undefined`. -/
def NamesMap.get (m : NamesMap) (k : Int) : Option NameRecord :=
  (m.find? (fun e => e.1 == k)).map (fun e => e.2)

/-- The constructor `new Map(entries)`: the entries are `set` one after another. -/
def NamesMap.ofEntries (entries : List (Int × NameRecord)) : NamesMap :=
  entries.foldl (fun m e => NamesMap.set m e.1 e.2) []

/-- Line 32: `new Map(names.map(name => [name.id, name]))`. -/
def namesMap (names : List NameRecord) : NamesMap :=
  NamesMap.ofEntries (names.map (fun name => (name.id, name)))

/-! ## Aggregate, join, sort -/

/-- Line 34: `counts.reduce((total, item) => total + item.count, 0)`. -/
def totalCount (counts : List CountRecord) : ℚ :=
  counts.foldl (fun total item => total + item.count) 0

/-- The method `Array.prototype.map` with a callback that may throw: the first
exception aborts the traversal. -/
def arrayMap {α β : Type} (f : α → Except Err β) : List α → Except Err (List β)
  | [] => Except.ok []
  | x :: xs =>
    match f x with
    | Except.error e => Except.error e
    | Except.ok y =>
      match arrayMap f xs with
      | Except.error e => Except.error e
      | Except.ok ys => Except.ok (y :: ys)

/-- The method `Array.prototype.sort(comparefn)`. ECMAScript requires the sort to be
stable and leaves the algorithm to the implementation; the model is the stable
insertion sort, where `a` may stay before `b` when `comparefn a b ≤ 0`. -/
def arraySort {α : Type} (comparefn : α → α → Int) (l : List α) : List α :=
  List.insertionSort (fun a b => comparefn a b ≤ 0) l

/-- The exception raised by reading `.name` of `undefined` (line 42). -/
def undefinedNameError : Err :=
  "TypeError: Cannot read properties of undefined (reading 'name')"

/-- The callback of `.map` (lines 38-46), given the lookup and the total. -/
def joinCallback (nm : NamesMap) (total : ℚ) (countItem : CountRecord) :
    Except Err JoinedRecord :=
  match nm.get countItem.id with
  | none => Except.error undefinedNameError
  | some name =>
    Except.ok
      { id := countItem.id
        name := name.name
        count := countItem.count
        percentOfTotal := jsDiv countItem.count total }

/-- Lines 32-47: the value of `combinedData`, or the exception thrown on the way. -/
def combinedData (localeCompare : String → String → Int)
    (names : List NameRecord) (counts : List CountRecord) :
    Except Err (List JoinedRecord) :=
  let nm := namesMap names
  let total := totalCount counts
  match arrayMap (joinCallback nm total)
      (counts.filter (fun countItem => nm.has countItem.id)) with
  | Except.error e => Except.error e
  | Except.ok rows => Except.ok (arraySort (fun a b => localeCompare a.name b.name) rows)

/-! ## Rendering and control flow -/

/-- A column configuration of the table module. -/
structure ColumnSpec where
  sourceField : String
  caption : String
  format : Option (Num → String)

/-- The `options` argument of the table module's `instance`. -/
structure TableOptions where
  dataSource : List JoinedRecord
  columns : List ColumnSpec

/-- Lines 49-57: the column list. -/
def columns (numberToString : ℚ → String) : List ColumnSpec :=
  [ { sourceField := "name", caption := "Name", format := none },
    { sourceField := "count", caption := "Count", format := none },
    { sourceField := "percentOfTotal", caption := "Percent of Total",
      format := some (fun value => toFixed numberToString (value.mul 100) 2 ++ "%") } ]

/-- The calls of `loadData` that are observable from outside. -/
inductive Event where
  | tableInstance (id : String) (options : TableOptions)
  | consoleError (label : String) (error : Err)

/-- The table module: whether `instance(id, options)` returns or throws. -/
abbrev TableModule := String → TableOptions → Except Err Unit

/-- The two promises of `dataAPI()` by their settlement, and which of them settles
first when both reject. -/
structure DataAPI where
  getNames : Except Err (List NameRecord)
  getCounts : Except Err (List CountRecord)
  countsSettlesFirst : Bool

/-- The settlement of `Promise.all([getNames(), getCounts()])`: fulfilled with both
values when both fulfil, otherwise rejected with the reason of the first promise to
reject. -/
def promiseAll (api : DataAPI) : Except Err (List NameRecord × List CountRecord) :=
  match api.getNames, api.getCounts with
  | Except.ok names, Except.ok counts => Except.ok (names, counts)
  | Except.error e, Except.ok _ => Except.error e
  | Except.ok _, Except.error e => Except.error e
  | Except.error e₁, Except.error e₂ =>
    Except.error (if api.countsSettlesFirst then e₂ else e₁)

/-- Lines 29-63: the body of the `try` block. -/
def loadDataTry (localeCompare : String → String → Int) (numberToString : ℚ → String)
    (api : DataAPI) (tm : TableModule) : Except Err Unit × List Event :=
  match promiseAll api with
  | Except.error e => (Except.error e, [])
  | Except.ok (names, counts) =>
    match combinedData localeCompare names counts with
    | Except.error e => (Except.error e, [])
    | Except.ok rows =>
      let options : TableOptions :=
        { dataSource := rows, columns := columns numberToString }
      (tm "table" options, [Event.tableInstance "table" options])

/-- Lines 27-68: `loadData`. An exception of the `try` block is logged and thrown
again. -/
def loadData (localeCompare : String → String → Int) (numberToString : ℚ → String)
    (api : DataAPI) (tm : TableModule) : Except Err Unit × List Event :=
  match loadDataTry localeCompare numberToString api tm with
  | (Except.ok u, events) => (Except.ok u, events)
  | (Except.error e, events) =>
    (Except.error e, events ++ [Event.consoleError "Error loading data:" e])

/-- The table-module calls among a list of events. -/
def renderCalls : List Event → List (String × TableOptions)
  | [] => []
  | Event.tableInstance id options :: rest => (id, options) :: renderCalls rest
  | Event.consoleError _ _ :: rest => renderCalls rest

/-! ## Specification-level definitions -/

/-- The name found in the lookup for an id; the empty string stands for a missing
key, which the join never reads. -/
def lookupName (names : List NameRecord) (id : Int) : String :=
  match (namesMap names).get id with
  | some name => name.name
  | none => ""

/-- The row built from one count record. -/
def joinedRow (names : List NameRecord) (counts : List CountRecord)
    (countItem : CountRecord) : JoinedRecord :=
  { id := countItem.id
    name := lookupName names countItem.id
    count := countItem.count
    percentOfTotal := jsDiv countItem.count (totalCount counts) }

/-- The rows before sorting: each count record whose id is a key of the lookup, in
the order of the count collection, turned into its row. -/
def joinedRows (names : List NameRecord) (counts : List CountRecord) : List JoinedRecord :=
  (counts.filter (fun countItem => (namesMap names).has countItem.id)).map
    (joinedRow names counts)

/-- A comparator that is a total preorder: any two strings are comparable, the
order is transitive, and `0` is returned exactly for strings that are below each
other. -/
structure IsTotalPreorder (cmp : String → String → Int) : Prop where
  total : ∀ a b, cmp a b ≤ 0 ∨ cmp b a ≤ 0
  trans : ∀ a b c, cmp a b ≤ 0 → cmp b c ≤ 0 → cmp a c ≤ 0
  eq_zero_iff : ∀ a b, cmp a b = 0 ↔ cmp a b ≤ 0 ∧ cmp b a ≤ 0

/-- The datasets handed to the table module, one for each call, in call order. -/
def renderedDatasets (events : List Event) : List (List JoinedRecord) :=
  (renderCalls events).map (fun call => call.2.dataSource)

/-- The api whose two promises fulfil with the given collections. -/
def fulfilledAPI (names : List NameRecord) (counts : List CountRecord) (first : Bool) :
    DataAPI :=
  { getNames := Except.ok names, getCounts := Except.ok counts, countsSettlesFirst := first }

/-- A comparator by code points, an instance of a locale comparator. -/
def codePointCompare (a b : String) : Int :=
  if a.data < b.data then -1 else if a.data = b.data then 0 else 1

/-- The name collection of the worked example. -/
def exampleNames : List NameRecord :=
  [{ id := 1, name := "Bob" }, { id := 2, name := "Amy" }]

/-- The count collection of the worked example. -/
def exampleCounts : List CountRecord :=
  [{ id := 1, count := 30 }, { id := 2, count := 10 }, { id := 3, count := 60 }]

/-- The dataset of the worked example: Amy before Bob, no row of id 3. -/
def exampleOutput : List JoinedRecord :=
  [ { id := 2, name := "Amy", count := 10, percentOfTotal := Num.fin (1 / 10) },
    { id := 1, name := "Bob", count := 30, percentOfTotal := Num.fin (3 / 10) } ]

/-- A table module whose `instance` call always throws. -/
def failingTableModule : TableModule :=
  fun _ _ => Except.error "table container not found"

/-- A name collection with a tie: two records named "Bob". -/
def tieNames : List NameRecord :=
  [{ id := 1, name := "Bob" }, { id := 2, name := "Amy" }, { id := 3, name := "Bob" }]

/-- A count collection in which the record of id 3 precedes the record of id 1. -/
def tieCounts : List CountRecord :=
  [{ id := 3, count := 60 }, { id := 1, count := 30 }, { id := 2, count := 10 }]

/-- A table module whose `instance` call always returns. -/
def returningTableModule : TableModule :=
  fun _ _ => Except.ok ()

/-- A name collection in which id 1 occurs twice, first as "Bob", last as "Robert". -/
def duplicateNames : List NameRecord :=
  [{ id := 1, name := "Bob" }, { id := 2, name := "Amy" }, { id := 1, name := "Robert" }]

theorem NamesMap.has_set (m : NamesMap) (k k' : Int) (v : NameRecord) :
    (NamesMap.set m k v).has k' = ((k == k') || m.has k') := by
  induction m with
  | nil => simp [NamesMap.set, NamesMap.has]
  | cons e rest ih =>
    obtain ⟨k0, v0⟩ := e
    simp only [NamesMap.has] at ih
    by_cases h : k0 = k
    · subst h
      simp only [NamesMap.set, NamesMap.has, if_true, List.any_cons]
      cases (k0 == k') <;> simp
    · simp only [NamesMap.set, NamesMap.has, h, if_false, List.any_cons, ih]
      cases (k0 == k') <;> cases (k == k') <;> simp

theorem NamesMap.get_set (m : NamesMap) (k k' : Int) (v : NameRecord) :
    (NamesMap.set m k v).get k' = if k = k' then some v else m.get k' := by
  induction m with
  | nil => by_cases h : k = k' <;> simp [NamesMap.set, NamesMap.get, h]
  | cons e rest ih =>
    obtain ⟨k0, v0⟩ := e
    simp only [NamesMap.get] at ih
    by_cases h : k0 = k
    · subst h
      by_cases h' : k0 = k' <;> simp [NamesMap.set, NamesMap.get, h', List.find?_cons]
    · by_cases h' : k0 = k'
      · subst h'
        simp [NamesMap.set, NamesMap.get, h, List.find?_cons, Ne.symm h]
      · simp [NamesMap.set, NamesMap.get, h, List.find?_cons, h', ih]

theorem NamesMap.has_foldl_set (es : List (Int × NameRecord)) (m : NamesMap) (k : Int) :
    (es.foldl (fun m e => NamesMap.set m e.1 e.2) m).has k
      = (m.has k || es.any (fun e => e.1 == k)) := by
  induction es generalizing m with
  | nil => simp
  | cons e es ih =>
    simp only [List.foldl_cons, ih, NamesMap.has_set, List.any_cons]
    cases m.has k <;> cases (e.1 == k) <;> simp

theorem NamesMap.get_foldl_set (es : List (Int × NameRecord)) (m : NamesMap) (k : Int) :
    (es.foldl (fun m e => NamesMap.set m e.1 e.2) m).get k
      = match es.reverse.find? (fun e => e.1 == k) with
        | some e => some e.2
        | none => m.get k := by
  induction es generalizing m with
  | nil => simp
  | cons e es ih =>
    simp only [List.foldl_cons, ih, NamesMap.get_set, List.reverse_cons, List.find?_append]
    cases hf : es.reverse.find? (fun e => e.1 == k) with
    | some e' => simp
    | none =>
      by_cases h : e.1 = k <;> simp [h, List.find?_cons]

/-- The lookup has a key exactly when some name record carries it. -/
theorem namesMap_has (names : List NameRecord) (k : Int) :
    (namesMap names).has k = names.any (fun n => n.id == k) := by
  unfold namesMap NamesMap.ofEntries
  rw [NamesMap.has_foldl_set]
  simp only [NamesMap.has, List.any_nil, Bool.false_or]
  induction names with
  | nil => rfl
  | cons n ns ih => simp only [List.map_cons, List.any_cons, ih]

/-- The lookup returns the last name record, in collection order, that carries the key. -/
theorem namesMap_get (names : List NameRecord) (k : Int) :
    (namesMap names).get k = names.reverse.find? (fun n => n.id == k) := by
  simp only [namesMap, NamesMap.ofEntries, NamesMap.get_foldl_set, ← List.map_reverse,
    List.find?_map, Function.comp_def]
  cases names.reverse.find? (fun n => n.id == k) <;> simp [NamesMap.get]

theorem namesMap_has_iff (names : List NameRecord) (k : Int) :
    (namesMap names).has k = true ↔ ∃ n ∈ names, n.id = k := by
  simp [namesMap_has]

theorem namesMap_get_of_has (names : List NameRecord) (k : Int)
    (h : (namesMap names).has k = true) :
    ∃ n, (namesMap names).get k = some n ∧ n ∈ names ∧ n.id = k := by
  rw [namesMap_get]
  rw [namesMap_has_iff] at h
  obtain ⟨n, hn, hk⟩ := h
  cases hf : names.reverse.find? (fun n => n.id == k) with
  | none =>
    rw [List.find?_eq_none] at hf
    have := hf n (List.mem_reverse.mpr hn)
    simp [hk] at this
  | some n' =>
    refine ⟨n', rfl, ?_, ?_⟩
    · exact List.mem_reverse.mp (List.mem_of_find?_eq_some hf)
    · simpa using List.find?_some hf

/-! ## The join as a pure function -/

theorem arrayMap_eq_map {α β : Type} (f : α → Except Err β) (g : α → β) (l : List α)
    (h : ∀ x ∈ l, f x = Except.ok (g x)) : arrayMap f l = Except.ok (l.map g) := by
  induction l with
  | nil => rfl
  | cons x xs ih =>
    have hx : f x = Except.ok (g x) := h x (List.mem_cons_self x xs)
    have hxs : arrayMap f xs = Except.ok (xs.map g) :=
      ih (fun y hy => h y (List.mem_cons_of_mem x hy))
    simp only [arrayMap, hx, hxs, List.map_cons]

theorem joinCallback_of_has (names : List NameRecord) (counts : List CountRecord)
    (c : CountRecord) (h : (namesMap names).has c.id = true) :
    joinCallback (namesMap names) (totalCount counts) c
      = Except.ok (joinedRow names counts c) := by
  obtain ⟨n, hget, -, -⟩ := namesMap_get_of_has names c.id h
  simp only [joinCallback, joinedRow, lookupName, hget]

/-- The callback of `.map` never throws on the filtered array: `combinedData` is the
sorted list of joined rows. -/
theorem combinedData_eq (cmp : String → String → Int) (names : List NameRecord)
    (counts : List CountRecord) :
    combinedData cmp names counts
      = Except.ok (arraySort (fun a b => cmp a.name b.name) (joinedRows names counts)) := by
  have h := arrayMap_eq_map (joinCallback (namesMap names) (totalCount counts))
    (joinedRow names counts)
    (counts.filter (fun countItem => (namesMap names).has countItem.id))
    (fun c hc => joinCallback_of_has names counts c (List.mem_filter.mp hc).2)
  simp only [combinedData, h, joinedRows]

theorem arraySort_perm {α : Type} (f : α → α → Int) (l : List α) :
    (arraySort f l).Perm l :=
  List.perm_insertionSort _ l

theorem mem_arraySort {α : Type} (f : α → α → Int) (l : List α) (x : α) :
    x ∈ arraySort f l ↔ x ∈ l :=
  (arraySort_perm f l).mem_iff

theorem mem_joinedRows (names : List NameRecord) (counts : List CountRecord)
    (r : JoinedRecord) :
    r ∈ joinedRows names counts ↔
      ∃ c ∈ counts, (namesMap names).has c.id = true ∧ joinedRow names counts c = r := by
  simp only [joinedRows, List.mem_map, List.mem_filter, and_assoc]

theorem eq_of_id_eq_of_nodup {α : Type} (f : α → Int) (l : List α) (h : (l.map f).Nodup)
    (a b : α) (ha : a ∈ l) (hb : b ∈ l) (hab : f a = f b) : a = b :=
  List.inj_on_of_nodup_map h ha hb hab

/-! ## Control flow with both promises fulfilled -/

/-- With both promises fulfilled, `loadData` settles as the table module's `instance`
call on the sorted rows does. -/
theorem loadData_resolved_result (cmp : String → String → Int) (nts : ℚ → String)
    (names : List NameRecord) (counts : List CountRecord) (first : Bool) (tm : TableModule) :
    (loadData cmp nts
        { getNames := Except.ok names, getCounts := Except.ok counts,
          countsSettlesFirst := first } tm).1
      = tm "table"
          { dataSource := arraySort (fun a b => cmp a.name b.name) (joinedRows names counts)
            columns := columns nts } := by
  simp only [loadData, loadDataTry, promiseAll, combinedData_eq]
  cases tm "table"
    { dataSource := arraySort (fun a b => cmp a.name b.name) (joinedRows names counts)
      columns := columns nts } <;> rfl

/-- With both promises fulfilled, `loadData` calls the table module exactly once, for
the container `table`, with the sorted rows and the column list. -/
theorem loadData_resolved_renderCalls (cmp : String → String → Int) (nts : ℚ → String)
    (names : List NameRecord) (counts : List CountRecord) (first : Bool) (tm : TableModule) :
    renderCalls (loadData cmp nts
        { getNames := Except.ok names, getCounts := Except.ok counts,
          countsSettlesFirst := first } tm).2
      = [("table",
          { dataSource := arraySort (fun a b => cmp a.name b.name) (joinedRows names counts)
            columns := columns nts })] := by
  simp only [loadData, loadDataTry, promiseAll, combinedData_eq]
  cases tm "table"
    { dataSource := arraySort (fun a b => cmp a.name b.name) (joinedRows names counts)
      columns := columns nts } <;> rfl

/-- With both promises fulfilled, exactly one dataset is handed to the table module:
the sorted joined rows. -/
theorem loadData_fulfilled_datasets (cmp : String → String → Int) (nts : ℚ → String)
    (names : List NameRecord) (counts : List CountRecord) (first : Bool) (tm : TableModule) :
    renderedDatasets (loadData cmp nts (fulfilledAPI names counts first) tm).2
      = [arraySort (fun a b => cmp a.name b.name) (joinedRows names counts)] := by
  simp only [renderedDatasets, fulfilledAPI, loadData_resolved_renderCalls, List.map_cons,
    List.map_nil]


theorem codePointCompare_le_iff (a b : String) :
    codePointCompare a b ≤ 0 ↔ a.data ≤ b.data := by
  unfold codePointCompare
  split_ifs with h1 h2
  · simp [le_of_lt h1]
  · simp [h2]
  · simp only [Int.reduceLE, false_iff, not_le]
    exact lt_of_le_of_ne (not_lt.mp h1) (Ne.symm h2)

theorem codePointCompare_eq_zero_iff (a b : String) :
    codePointCompare a b = 0 ↔ a.data = b.data := by
  unfold codePointCompare
  split_ifs with h1 h2
  · simp [ne_of_lt h1]
  · simp [h2]
  · simp [h2]

theorem codePointCompare_isTotalPreorder : IsTotalPreorder codePointCompare where
  total a b := by
    simp only [codePointCompare_le_iff]
    exact le_total _ _
  trans a b c := by
    simp only [codePointCompare_le_iff]
    exact le_trans
  eq_zero_iff a b := by
    simp only [codePointCompare_le_iff, codePointCompare_eq_zero_iff]
    exact le_antisymm_iff

/-! ## Inner join -/

/-- C1. Inner-join soundness: for every name and count collection that `loadData`
receives, `combinedData` is produced and is the one dataset handed to the table module,
and each of its rows has the id of some name record and of some count record; a count record whose id no
name record carries, and a name record whose id no count record carries, give no row
with that id. -/
theorem combinedData_inner_join_sound (cmp : String → String → Int) (nts : ℚ → String)
    (names : List NameRecord) (counts : List CountRecord) (first : Bool) (tm : TableModule) :
    ∃ rows, combinedData cmp names counts = Except.ok rows ∧
      renderedDatasets (loadData cmp nts (fulfilledAPI names counts first) tm).2 = [rows] ∧
      (∀ r ∈ rows, (∃ n ∈ names, n.id = r.id) ∧ (∃ c ∈ counts, c.id = r.id)) ∧
      (∀ c ∈ counts, (¬ ∃ n ∈ names, n.id = c.id) → ∀ r ∈ rows, r.id ≠ c.id) ∧
      (∀ n ∈ names, (¬ ∃ c ∈ counts, c.id = n.id) → ∀ r ∈ rows, r.id ≠ n.id) := by
  refine ⟨_, combinedData_eq cmp names counts,
    loadData_fulfilled_datasets cmp nts names counts first tm, ?_⟩
  have key : ∀ r ∈ arraySort (fun a b => cmp a.name b.name) (joinedRows names counts),
      (∃ n ∈ names, n.id = r.id) ∧ (∃ c ∈ counts, c.id = r.id) := by
    intro r hr
    rw [mem_arraySort, mem_joinedRows] at hr
    obtain ⟨c, hc, hhas, rfl⟩ := hr
    exact ⟨(namesMap_has_iff names c.id).mp hhas, c, hc, rfl⟩
  refine ⟨key, ?_, ?_⟩
  · intro c _ hno r hr hid
    exact hno (hid ▸ (key r hr).1)
  · intro n _ hno r hr hid
    exact hno (hid ▸ (key r hr).2)

/-- C2. Inner-join completeness: when ids are unique within the name collection and
within the count collection, every id carried by a name record and by a count record
is the id of exactly one row of `combinedData`, the dataset handed to the table
module. -/
theorem combinedData_inner_join_complete (cmp : String → String → Int) (nts : ℚ → String)
    (names : List NameRecord) (counts : List CountRecord) (first : Bool) (tm : TableModule)
    (_ : (names.map (fun n => n.id)).Nodup) (hc : (counts.map (fun c => c.id)).Nodup) :
    ∃ rows, combinedData cmp names counts = Except.ok rows ∧
      renderedDatasets (loadData cmp nts (fulfilledAPI names counts first) tm).2 = [rows] ∧
      ∀ i, i ∈ names.map (fun n => n.id) → i ∈ counts.map (fun c => c.id) →
        rows.countP (fun r => r.id == i) = 1 := by
  refine ⟨_, combinedData_eq cmp names counts,
    loadData_fulfilled_datasets cmp nts names counts first tm, ?_⟩
  intro i hin hic
  rw [(arraySort_perm _ _).countP_eq, joinedRows, List.countP_map, List.countP_filter]
  have hhas : (namesMap names).has i = true := by
    rw [namesMap_has_iff]
    simpa using hin
  have hfun : (fun c : CountRecord =>
      (((fun r : JoinedRecord => r.id == i) ∘ joinedRow names counts) c
        && (namesMap names).has c.id)) = fun c => (fun j : Int => j == i) c.id := by
    funext c
    by_cases h : c.id = i
    · simp [joinedRow, h, hhas]
    · simp [joinedRow, h]
  rw [hfun]
  have hone := List.count_eq_one_of_mem hc hic
  rw [List.count, List.countP_map] at hone
  exact hone

/-- Witness for C2 on the worked example. -/
theorem combinedData_inner_join_complete_witness :
    ((exampleNames.map (fun n => n.id)).Nodup ∧ (exampleCounts.map (fun c => c.id)).Nodup) ∧
    ∃ rows, combinedData codePointCompare exampleNames exampleCounts = Except.ok rows ∧
      renderedDatasets (loadData codePointCompare (fun _ => "")
        (fulfilledAPI exampleNames exampleCounts false) (fun _ _ => Except.ok ())).2 = [rows] ∧
      ∀ i, i ∈ exampleNames.map (fun n => n.id) → i ∈ exampleCounts.map (fun c => c.id) →
        rows.countP (fun r => r.id == i) = 1 :=
  ⟨⟨by decide, by decide⟩,
    combinedData_inner_join_complete codePointCompare (fun _ => "") exampleNames exampleCounts false
      (fun _ _ => Except.ok ())
      (by decide) (by decide)⟩

/-! ## Percentage -/

/-- C4. With unique ids in each collection, every row of `combinedData`, the dataset
handed to the table module, comes from a
count record and a name record with its id, and for every count record with the
row's id the row has that record's count, for every name record with the row's id the
row has that record's name, and `percentOfTotal` is `count / totalCount`. -/
theorem combinedData_combines (cmp : String → String → Int) (nts : ℚ → String)
    (names : List NameRecord) (counts : List CountRecord) (first : Bool) (tm : TableModule)
    (hn : (names.map (fun n => n.id)).Nodup) (hc : (counts.map (fun c => c.id)).Nodup) :
    ∃ rows, combinedData cmp names counts = Except.ok rows ∧
      renderedDatasets (loadData cmp nts (fulfilledAPI names counts first) tm).2 = [rows] ∧
      ∀ r ∈ rows,
        (∃ c ∈ counts, c.id = r.id) ∧ (∃ n ∈ names, n.id = r.id) ∧
        (∀ c ∈ counts, c.id = r.id → r.count = c.count) ∧
        (∀ n ∈ names, n.id = r.id → r.name = n.name) ∧
        r.percentOfTotal = jsDiv r.count (totalCount counts) := by
  refine ⟨_, combinedData_eq cmp names counts,
    loadData_fulfilled_datasets cmp nts names counts first tm, ?_⟩
  intro r hr
  rw [mem_arraySort, mem_joinedRows] at hr
  obtain ⟨c, hcmem, hhas, rfl⟩ := hr
  obtain ⟨n, hget, hnmem, hnid⟩ := namesMap_get_of_has names c.id hhas
  refine ⟨⟨c, hcmem, rfl⟩, ⟨n, hnmem, hnid⟩, ?_, ?_, rfl⟩
  · intro c' hc' hid
    have : c' = c := eq_of_id_eq_of_nodup (fun c => c.id) counts hc c' c hc' hcmem hid
    rw [this]
    rfl
  · intro n' hn' hid
    have hid' : n'.id = n.id := by rw [hnid]; exact hid
    have : n' = n := eq_of_id_eq_of_nodup (fun n => n.id) names hn n' n hn' hnmem hid'
    rw [this]
    simp only [joinedRow, lookupName, hget]

/-- Witness for C4 on the worked example. -/
theorem combinedData_combines_witness :
    ((exampleNames.map (fun n => n.id)).Nodup ∧ (exampleCounts.map (fun c => c.id)).Nodup) ∧
    ∃ rows, combinedData codePointCompare exampleNames exampleCounts = Except.ok rows ∧
      renderedDatasets (loadData codePointCompare (fun _ => "")
        (fulfilledAPI exampleNames exampleCounts false) (fun _ _ => Except.ok ())).2 = [rows] ∧
      ∀ r ∈ rows,
        (∃ c ∈ exampleCounts, c.id = r.id) ∧ (∃ n ∈ exampleNames, n.id = r.id) ∧
        (∀ c ∈ exampleCounts, c.id = r.id → r.count = c.count) ∧
        (∀ n ∈ exampleNames, n.id = r.id → r.name = n.name) ∧
        r.percentOfTotal = jsDiv r.count (totalCount exampleCounts) :=
  ⟨⟨by decide, by decide⟩,
    combinedData_combines codePointCompare (fun _ => "") exampleNames exampleCounts false
      (fun _ _ => Except.ok ()) (by decide) (by decide)⟩


/-! ## Sorting -/

theorem arraySort_pairwise {α : Type} (f : α → α → Int)
    (htotal : ∀ a b, f a b ≤ 0 ∨ f b a ≤ 0)
    (htrans : ∀ a b c, f a b ≤ 0 → f b c ≤ 0 → f a c ≤ 0) (l : List α) :
    (arraySort f l).Pairwise (fun a b => f a b ≤ 0) := by
  haveI : IsTotal α (fun a b => f a b ≤ 0) := ⟨htotal⟩
  haveI : IsTrans α (fun a b => f a b ≤ 0) := ⟨htrans⟩
  exact List.sorted_insertionSort (fun a b => f a b ≤ 0) l

/-- Stability: the elements satisfying `p`, when any two of them may stay in their
order, appear in the sorted list as they do in the input. -/
theorem arraySort_filter_eq {α : Type} (f : α → α → Int) (p : α → Bool) (l : List α)
    (hp : ∀ a b, p a = true → p b = true → f a b ≤ 0) :
    (arraySort f l).filter p = l.filter p := by
  have hpw : (l.filter p).Pairwise (fun a b => f a b ≤ 0) :=
    List.pairwise_of_forall_mem_list (fun a ha b hb =>
      hp a b (List.mem_filter.mp ha).2 (List.mem_filter.mp hb).2)
  have hsub : List.Sublist (l.filter p) (arraySort f l) :=
    List.sublist_insertionSort hpw (List.filter_sublist l)
  have hsub' : List.Sublist (l.filter p) ((arraySort f l).filter p) := by
    have := hsub.filter p
    rwa [List.filter_filter, show (fun a => p a && p a) = p from by funext a; simp] at this
  have hlen : (l.filter p).length = ((arraySort f l).filter p).length :=
    ((arraySort_perm f l).filter p).length_eq.symm
  exact (hsub'.eq_of_length hlen).symm

/-- C5. Sorted output: under a comparator that is a total preorder, `combinedData`,
the dataset handed to the table module, is non-decreasing by name: every adjacent pair of rows `a`, `b` has
`localeCompare a.name b.name ≤ 0`, and so has every pair of an earlier and a later
row. -/
theorem combinedData_sorted (cmp : String → String → Int) (nts : ℚ → String)
    (names : List NameRecord) (counts : List CountRecord) (first : Bool) (tm : TableModule)
    (hcmp : IsTotalPreorder cmp) :
    ∃ rows, combinedData cmp names counts = Except.ok rows ∧
      renderedDatasets (loadData cmp nts (fulfilledAPI names counts first) tm).2 = [rows] ∧
      rows.Chain' (fun a b => cmp a.name b.name ≤ 0) ∧
      rows.Pairwise (fun a b => cmp a.name b.name ≤ 0) := by
  have hpw := arraySort_pairwise (fun a b : JoinedRecord => cmp a.name b.name)
    (fun a b => hcmp.total a.name b.name)
    (fun a b c => hcmp.trans a.name b.name c.name) (joinedRows names counts)
  exact ⟨_, combinedData_eq cmp names counts,
    loadData_fulfilled_datasets cmp nts names counts first tm, hpw.chain', hpw⟩

/-- Witness for C5 on the worked example with the code-point comparator. -/
theorem combinedData_sorted_witness :
    IsTotalPreorder codePointCompare ∧
    ∃ rows, combinedData codePointCompare exampleNames exampleCounts = Except.ok rows ∧
      renderedDatasets (loadData codePointCompare (fun _ => "")
        (fulfilledAPI exampleNames exampleCounts false) (fun _ _ => Except.ok ())).2 = [rows] ∧
      rows.Chain' (fun a b => codePointCompare a.name b.name ≤ 0) ∧
      rows.Pairwise (fun a b => codePointCompare a.name b.name ≤ 0) :=
  ⟨codePointCompare_isTotalPreorder,
    combinedData_sorted codePointCompare (fun _ => "") exampleNames exampleCounts false
      (fun _ _ => Except.ok ()) codePointCompare_isTotalPreorder⟩

/-- C6. Sort stability: under a comparator that is a total preorder, for every
string `s` the rows of `combinedData`, the dataset handed to the table module, whose
name compares equal to `s` are, in this
order, the rows of those count records, in the order of the count collection, that
are joined and whose name compares equal to `s`; so two rows with equal names that
follow each other in the order of the count collection follow each other in the
output. -/
theorem combinedData_stable (cmp : String → String → Int) (nts : ℚ → String)
    (names : List NameRecord) (counts : List CountRecord) (first : Bool) (tm : TableModule)
    (hcmp : IsTotalPreorder cmp) :
    ∃ rows, combinedData cmp names counts = Except.ok rows ∧
      renderedDatasets (loadData cmp nts (fulfilledAPI names counts first) tm).2 = [rows] ∧
      (∀ s : String, rows.filter (fun r => cmp r.name s == 0)
        = (counts.filter (fun c => (namesMap names).has c.id
            && cmp (lookupName names c.id) s == 0)).map (joinedRow names counts)) ∧
      (∀ a b : JoinedRecord, cmp a.name b.name = 0 →
        List.Sublist [a, b] ((counts.filter (fun c => (namesMap names).has c.id)).map
          (joinedRow names counts)) →
        List.Sublist [a, b] rows) := by
  refine ⟨_, combinedData_eq cmp names counts,
    loadData_fulfilled_datasets cmp nts names counts first tm, ?_, ?_⟩
  · intro s
    rw [arraySort_filter_eq]
    · simp only [joinedRows, List.filter_map, List.filter_filter]
      congr 1
      apply List.filter_congr
      intro c _
      simp only [Function.comp_def, joinedRow, Bool.and_comm]
    · intro a b ha hb
      have ha' : cmp a.name s = 0 := by simpa using ha
      have hb' : cmp b.name s = 0 := by simpa using hb
      exact hcmp.trans _ _ _ ((hcmp.eq_zero_iff _ _).mp ha').1 ((hcmp.eq_zero_iff _ _).mp hb').2
  · intro a b hab hsub
    exact List.pair_sublist_insertionSort (r := fun a b : JoinedRecord => cmp a.name b.name ≤ 0)
      (le_of_eq hab) hsub

/-- Witness for C6 on a collection with two rows named "Bob". -/
theorem combinedData_stable_witness :
    IsTotalPreorder codePointCompare ∧
    ∃ rows, combinedData codePointCompare tieNames tieCounts = Except.ok rows ∧
      renderedDatasets (loadData codePointCompare (fun _ => "")
        (fulfilledAPI tieNames tieCounts false) (fun _ _ => Except.ok ())).2 = [rows] ∧
      (∀ s : String, rows.filter (fun r => codePointCompare r.name s == 0)
        = (tieCounts.filter (fun c => (namesMap tieNames).has c.id
            && codePointCompare (lookupName tieNames c.id) s == 0)).map
              (joinedRow tieNames tieCounts)) ∧
      (∀ a b : JoinedRecord, codePointCompare a.name b.name = 0 →
        List.Sublist [a, b] ((tieCounts.filter (fun c => (namesMap tieNames).has c.id)).map
          (joinedRow tieNames tieCounts)) →
        List.Sublist [a, b] rows) :=
  ⟨codePointCompare_isTotalPreorder,
    combinedData_stable codePointCompare (fun _ => "") tieNames tieCounts false
      (fun _ _ => Except.ok ()) codePointCompare_isTotalPreorder⟩


/-! ## Control flow -/

/-- C7. Fail-fast: when `getNames` or `getCounts` rejects, `loadData` rejects with the
reason of a rejected fetch, makes no call to the table module, and its only observable
call is the log of that reason. -/
theorem loadData_fail_fast (cmp : String → String → Int) (nts : ℚ → String)
    (api : DataAPI) (tm : TableModule)
    (h : (∃ e, api.getNames = Except.error e) ∨ (∃ e, api.getCounts = Except.error e)) :
    ∃ e, (loadData cmp nts api tm).1 = Except.error e ∧
      (api.getNames = Except.error e ∨ api.getCounts = Except.error e) ∧
      (loadData cmp nts api tm).2 = [Event.consoleError "Error loading data:" e] ∧
      renderCalls (loadData cmp nts api tm).2 = [] ∧
      (loadData cmp nts api tm).1 ≠ Except.ok () := by
  obtain ⟨gn, gc, first⟩ := api
  cases gn with
  | error e₁ =>
    cases gc with
    | error e₂ =>
      cases first
      · exact ⟨e₁, by simp [loadData, loadDataTry, promiseAll, renderCalls]⟩
      · exact ⟨e₂, by simp [loadData, loadDataTry, promiseAll, renderCalls]⟩
    | ok counts => exact ⟨e₁, by simp [loadData, loadDataTry, promiseAll, renderCalls]⟩
  | ok names =>
    cases gc with
    | error e₂ => exact ⟨e₂, by simp [loadData, loadDataTry, promiseAll, renderCalls]⟩
    | ok counts => simp at h

/-- Witness for C7: `getNames` rejects while `getCounts` fulfils. -/
theorem loadData_fail_fast_witness :
    ((∃ e, (Except.error "timeout" : Except Err (List NameRecord)) = Except.error e) ∨
      (∃ e, (Except.ok exampleCounts : Except Err (List CountRecord)) = Except.error e)) ∧
    ∃ e, (loadData codePointCompare (fun _ => "")
        { getNames := Except.error "timeout", getCounts := Except.ok exampleCounts,
          countsSettlesFirst := false } (fun _ _ => Except.ok ())).1 = Except.error e ∧
      ((Except.error "timeout" : Except Err (List NameRecord)) = Except.error e ∨
        (Except.ok exampleCounts : Except Err (List CountRecord)) = Except.error e) ∧
      (loadData codePointCompare (fun _ => "")
        { getNames := Except.error "timeout", getCounts := Except.ok exampleCounts,
          countsSettlesFirst := false } (fun _ _ => Except.ok ())).2
        = [Event.consoleError "Error loading data:" e] ∧
      renderCalls (loadData codePointCompare (fun _ => "")
        { getNames := Except.error "timeout", getCounts := Except.ok exampleCounts,
          countsSettlesFirst := false } (fun _ _ => Except.ok ())).2 = [] ∧
      (loadData codePointCompare (fun _ => "")
        { getNames := Except.error "timeout", getCounts := Except.ok exampleCounts,
          countsSettlesFirst := false } (fun _ _ => Except.ok ())).1 ≠ Except.ok () :=
  ⟨Or.inl ⟨"timeout", rfl⟩,
    loadData_fail_fast codePointCompare (fun _ => "")
      { getNames := Except.error "timeout", getCounts := Except.ok exampleCounts,
        countsSettlesFirst := false } (fun _ _ => Except.ok ()) (Or.inl ⟨"timeout", rfl⟩)⟩


/-! ## Worked example -/

theorem joinedRows_example :
    joinedRows exampleNames exampleCounts
      = [ { id := 1, name := "Bob", count := 30, percentOfTotal := Num.fin (3 / 10) },
          { id := 2, name := "Amy", count := 10, percentOfTotal := Num.fin (1 / 10) } ] := by
  decide!

theorem toFixed_two_of_nonneg_small (nts : ℚ → String) (q : ℚ) (h0 : 0 ≤ q)
    (h1 : q < (10 : ℚ) ^ 21) :
    toFixed nts (Num.fin q) 2
      = String.mk (toFixedDigits 2 (Int.toNat (Rat.floor (q * (10 : ℚ) ^ 2 + 1 / 2)))) := by
  simp only [toFixed, if_neg (not_lt.mpr h0), if_neg (not_le.mpr h1), String.empty_append]

/-- C8. Worked example: for a comparator that is a total preorder and puts "Amy"
before "Bob", `totalCount` is 100, and `loadData` calls the table module once with the
rows of Amy (id 2, count 10, 0.10) and Bob (id 1, count 30, 0.30) in this order,
without a row of id 3; the format of the third column prints "10.00%" and "30.00%". -/
theorem loadData_worked_example (cmp : String → String → Int) (nts : ℚ → String)
    (first : Bool) (tm : TableModule)
    (hcmp : IsTotalPreorder cmp) (hAB : cmp "Amy" "Bob" < 0) :
    totalCount exampleCounts = 100 ∧
    combinedData cmp exampleNames exampleCounts = Except.ok exampleOutput ∧
    renderCalls (loadData cmp nts
        { getNames := Except.ok exampleNames, getCounts := Except.ok exampleCounts,
          countsSettlesFirst := first } tm).2
      = [("table", { dataSource := exampleOutput, columns := columns nts })] ∧
    (∀ r ∈ exampleOutput, r.id ≠ 3) ∧
    (∃ col fmt, (columns nts)[2]? = some col ∧ col.sourceField = "percentOfTotal" ∧
      col.format = some fmt ∧
      exampleOutput.map (fun r => fmt r.percentOfTotal) = ["10.00%", "30.00%"]) := by
  have hBA : ¬ cmp "Bob" "Amy" ≤ 0 := by
    intro hle
    have h0 := (hcmp.eq_zero_iff "Amy" "Bob").mpr ⟨le_of_lt hAB, hle⟩
    omega
  have hsort : arraySort (fun a b : JoinedRecord => cmp a.name b.name)
      (joinedRows exampleNames exampleCounts) = exampleOutput := by
    rw [joinedRows_example]
    simp only [arraySort, List.insertionSort, List.orderedInsert, if_neg hBA, exampleOutput]
  refine ⟨by decide!, ?_, ?_, by decide!, ?_⟩
  · rw [combinedData_eq, hsort]
  · rw [loadData_resolved_renderCalls, hsort]
  · refine ⟨_, _, rfl, rfl, rfl, ?_⟩
    have h1 : (Num.fin (1 / 10)).mul 100 = Num.fin 10 := by
      simp only [Num.mul]; norm_num
    have h3 : (Num.fin (3 / 10)).mul 100 = Num.fin 30 := by
      simp only [Num.mul]; norm_num
    simp only [exampleOutput, List.map_cons, List.map_nil, h1, h3]
    rw [toFixed_two_of_nonneg_small nts 10 (by norm_num) (by norm_num),
      toFixed_two_of_nonneg_small nts 30 (by norm_num) (by norm_num)]
    decide!

/-- Witness for C8 with the code-point comparator. -/
theorem loadData_worked_example_witness :
    (IsTotalPreorder codePointCompare ∧ codePointCompare "Amy" "Bob" < 0) ∧
    (totalCount exampleCounts = 100 ∧
    combinedData codePointCompare exampleNames exampleCounts = Except.ok exampleOutput ∧
    renderCalls (loadData codePointCompare (fun _ => "")
        { getNames := Except.ok exampleNames, getCounts := Except.ok exampleCounts,
          countsSettlesFirst := false } (fun _ _ => Except.ok ())).2
      = [("table", { dataSource := exampleOutput, columns := columns (fun _ => "") })] ∧
    (∀ r ∈ exampleOutput, r.id ≠ 3) ∧
    (∃ col fmt, (columns (fun _ => ""))[2]? = some col ∧
      col.sourceField = "percentOfTotal" ∧ col.format = some fmt ∧
      exampleOutput.map (fun r => fmt r.percentOfTotal) = ["10.00%", "30.00%"])) :=
  ⟨⟨codePointCompare_isTotalPreorder, by decide!⟩,
    loadData_worked_example codePointCompare (fun _ => "") false (fun _ _ => Except.ok ())
      codePointCompare_isTotalPreorder (by decide!)⟩


/-! ## Empty intersection and row count -/

theorem joinedRows_eq_nil_of_disjoint (names : List NameRecord) (counts : List CountRecord)
    (h : ∀ n ∈ names, ∀ c ∈ counts, n.id ≠ c.id) : joinedRows names counts = [] := by
  simp only [joinedRows, List.map_eq_nil_iff, List.filter_eq_nil_iff]
  intro c hc hhas
  obtain ⟨n, hn, hid⟩ := (namesMap_has_iff names c.id).mp hhas
  exact h n hn c hc hid

/-- C9, as the code has it. Empty intersection: when both fetches fulfil and no id of
the name collection is an id of the count collection, `combinedData` is the empty
list, `loadData` calls the table module exactly once, with zero rows, and settles as
that call does: it succeeds when the call returns. -/
theorem loadData_empty_intersection (cmp : String → String → Int) (nts : ℚ → String)
    (names : List NameRecord) (counts : List CountRecord) (first : Bool) (tm : TableModule)
    (h : ∀ n ∈ names, ∀ c ∈ counts, n.id ≠ c.id) :
    combinedData cmp names counts = Except.ok [] ∧
    renderCalls (loadData cmp nts
        { getNames := Except.ok names, getCounts := Except.ok counts,
          countsSettlesFirst := first } tm).2
      = [("table", { dataSource := [], columns := columns nts })] ∧
    (tm "table" { dataSource := [], columns := columns nts } = Except.ok () →
      loadData cmp nts
        { getNames := Except.ok names, getCounts := Except.ok counts,
          countsSettlesFirst := first } tm
      = (Except.ok (), [Event.tableInstance "table"
          { dataSource := [], columns := columns nts }])) := by
  have hsort : arraySort (fun a b : JoinedRecord => cmp a.name b.name)
      (joinedRows names counts) = [] := by
    rw [joinedRows_eq_nil_of_disjoint names counts h]
    rfl
  refine ⟨?_, ?_, ?_⟩
  · rw [combinedData_eq, hsort]
  · rw [loadData_resolved_renderCalls, hsort]
  · intro hok
    simp only [loadData, loadDataTry, promiseAll, combinedData_eq, hsort, hok]

/-- Witness for C9: one name, one count, different ids, and a table module that
returns. -/
theorem loadData_empty_intersection_witness :
    (∀ n ∈ [({ id := 1, name := "Bob" } : NameRecord)],
      ∀ c ∈ [({ id := 2, count := 5 } : CountRecord)], n.id ≠ c.id) ∧
    (combinedData codePointCompare [{ id := 1, name := "Bob" }] [{ id := 2, count := 5 }]
      = Except.ok [] ∧
    renderCalls (loadData codePointCompare (fun _ => "")
        { getNames := Except.ok [{ id := 1, name := "Bob" }],
          getCounts := Except.ok [{ id := 2, count := 5 }],
          countsSettlesFirst := false } (fun _ _ => Except.ok ())).2
      = [("table", { dataSource := [], columns := columns (fun _ => "") })] ∧
    ((fun _ _ => Except.ok () : TableModule) "table"
        { dataSource := [], columns := columns (fun _ => "") } = Except.ok () →
      loadData codePointCompare (fun _ => "")
        { getNames := Except.ok [{ id := 1, name := "Bob" }],
          getCounts := Except.ok [{ id := 2, count := 5 }],
          countsSettlesFirst := false } (fun _ _ => Except.ok ())
      = (Except.ok (), [Event.tableInstance "table"
          { dataSource := [], columns := columns (fun _ => "") }]))) :=
  ⟨by decide,
    loadData_empty_intersection codePointCompare (fun _ => "")
      [{ id := 1, name := "Bob" }] [{ id := 2, count := 5 }] false (fun _ _ => Except.ok ())
      (by decide)⟩

/-- Counterexample to C9 as stated: both fetches fulfil, no id is shared, the table
module is called once with zero rows, its call throws, and `loadData` rejects with
that exception instead of succeeding. -/
theorem loadData_empty_intersection_render_throws :
    (∀ n ∈ [({ id := 1, name := "Bob" } : NameRecord)],
      ∀ c ∈ [({ id := 2, count := 5 } : CountRecord)], n.id ≠ c.id) ∧
    renderCalls (loadData codePointCompare (fun _ => "")
        { getNames := Except.ok [{ id := 1, name := "Bob" }],
          getCounts := Except.ok [{ id := 2, count := 5 }],
          countsSettlesFirst := false } failingTableModule).2
      = [("table", { dataSource := [], columns := columns (fun _ => "") })] ∧
    (loadData codePointCompare (fun _ => "")
        { getNames := Except.ok [{ id := 1, name := "Bob" }],
          getCounts := Except.ok [{ id := 2, count := 5 }],
          countsSettlesFirst := false } failingTableModule).1
      = Except.error "table container not found" ∧
    (loadData codePointCompare (fun _ => "")
        { getNames := Except.ok [{ id := 1, name := "Bob" }],
          getCounts := Except.ok [{ id := 2, count := 5 }],
          countsSettlesFirst := false } failingTableModule).1 ≠ Except.ok () := by
  have hres := loadData_resolved_result codePointCompare (fun _ => "")
    [{ id := 1, name := "Bob" }] [{ id := 2, count := 5 }] false failingTableModule
  have hcalls := loadData_resolved_renderCalls codePointCompare (fun _ => "")
    [{ id := 1, name := "Bob" }] [{ id := 2, count := 5 }] false failingTableModule
  have hnil : joinedRows [{ id := 1, name := "Bob" }] [{ id := 2, count := 5 }] = [] :=
    joinedRows_eq_nil_of_disjoint _ _ (by decide)
  rw [hnil] at hcalls
  refine ⟨by decide, hcalls, ?_, ?_⟩
  · rw [hres]; rfl
  · rw [hres]; simp [failingTableModule]

/-- C10. Row count: when both fetches fulfil and ids are unique within each
collection, the dataset of the single table-module call has as many rows as there are
distinct ids common to the name collection and the count collection. -/
theorem loadData_row_count (cmp : String → String → Int) (nts : ℚ → String)
    (names : List NameRecord) (counts : List CountRecord) (first : Bool) (tm : TableModule)
    (_ : (names.map (fun n => n.id)).Nodup) (hc : (counts.map (fun c => c.id)).Nodup) :
    ∃ rows, combinedData cmp names counts = Except.ok rows ∧
      renderCalls (loadData cmp nts
          { getNames := Except.ok names, getCounts := Except.ok counts,
            countsSettlesFirst := first } tm).2
        = [("table", { dataSource := rows, columns := columns nts })] ∧
      rows.length
        = ((names.map (fun n => n.id)).toFinset ∩ (counts.map (fun c => c.id)).toFinset).card := by
  refine ⟨_, combinedData_eq cmp names counts,
    loadData_resolved_renderCalls cmp nts names counts first tm, ?_⟩
  rw [(arraySort_perm _ _).length_eq, joinedRows, List.length_map]
  have hfilter : ((counts.filter (fun c => (namesMap names).has c.id)).map (fun c => c.id))
      = (counts.map (fun c => c.id)).filter (fun i => (namesMap names).has i) := by
    rw [List.filter_map]; rfl
  have hnodup : ((counts.map (fun c => c.id)).filter (fun i => (namesMap names).has i)).Nodup :=
    hc.filter _
  rw [← List.length_map (counts.filter (fun c => (namesMap names).has c.id)) (fun c => c.id),
    hfilter, ← List.toFinset_card_of_nodup hnodup]
  congr 1
  ext i
  simp only [List.mem_toFinset, List.mem_filter, Finset.mem_inter, namesMap_has_iff,
    List.mem_map]
  constructor
  · rintro ⟨hic, n, hn, hid⟩
    exact ⟨⟨n, hn, hid⟩, hic⟩
  · rintro ⟨⟨n, hn, hid⟩, hic⟩
    exact ⟨hic, n, hn, hid⟩

/-- Witness for C10 on the worked example: two common ids, two rows. -/
theorem loadData_row_count_witness :
    ((exampleNames.map (fun n => n.id)).Nodup ∧ (exampleCounts.map (fun c => c.id)).Nodup) ∧
    ∃ rows, combinedData codePointCompare exampleNames exampleCounts = Except.ok rows ∧
      renderCalls (loadData codePointCompare (fun _ => "")
          { getNames := Except.ok exampleNames, getCounts := Except.ok exampleCounts,
            countsSettlesFirst := false } (fun _ _ => Except.ok ())).2
        = [("table", { dataSource := rows, columns := columns (fun _ => "") })] ∧
      rows.length
        = ((exampleNames.map (fun n => n.id)).toFinset
            ∩ (exampleCounts.map (fun c => c.id)).toFinset).card :=
  ⟨⟨by decide, by decide⟩,
    loadData_row_count codePointCompare (fun _ => "") exampleNames exampleCounts false
      (fun _ _ => Except.ok ()) (by decide) (by decide)⟩


/-! ## Rendering -/

/-- With both promises fulfilled and a returning `instance` call, `loadData` fulfils
and its only observable call is that `instance` call. -/
theorem loadData_fulfilled_of_ok (cmp : String → String → Int) (nts : ℚ → String)
    (names : List NameRecord) (counts : List CountRecord) (first : Bool) (tm : TableModule)
    (h : tm "table"
        { dataSource := arraySort (fun a b => cmp a.name b.name) (joinedRows names counts)
          columns := columns nts } = Except.ok ()) :
    loadData cmp nts (fulfilledAPI names counts first) tm
      = (Except.ok (), [Event.tableInstance "table"
          { dataSource := arraySort (fun a b => cmp a.name b.name) (joinedRows names counts)
            columns := columns nts }]) := by
  simp only [loadData, loadDataTry, promiseAll, fulfilledAPI, combinedData_eq, h]

/-- With both promises fulfilled and a throwing `instance` call, `loadData` logs the
exception after the call and rejects with it. -/
theorem loadData_fulfilled_of_error (cmp : String → String → Int) (nts : ℚ → String)
    (names : List NameRecord) (counts : List CountRecord) (first : Bool) (tm : TableModule)
    (e : Err)
    (h : tm "table"
        { dataSource := arraySort (fun a b => cmp a.name b.name) (joinedRows names counts)
          columns := columns nts } = Except.error e) :
    loadData cmp nts (fulfilledAPI names counts first) tm
      = (Except.error e, [Event.tableInstance "table"
          { dataSource := arraySort (fun a b => cmp a.name b.name) (joinedRows names counts)
            columns := columns nts }, Event.consoleError "Error loading data:" e]) := by
  simp only [loadData, loadDataTry, promiseAll, fulfilledAPI, combinedData_eq, h,
    List.singleton_append]

/-- C11. Single render on success: when both fetches fulfil and the `instance` call
returns, `loadData` fulfils and its only observable call is one `instance` call, for
the container `table`, whose `dataSource` is `combinedData`, the sorted joined rows,
and whose `columns` is the list of three entries name/Name, count/Count (both without
format) and percentOfTotal/Percent of Total (with the percent format), whatever the
fetched data. -/
theorem loadData_single_render (cmp : String → String → Int) (nts : ℚ → String)
    (names : List NameRecord) (counts : List CountRecord) (first : Bool) (tm : TableModule)
    (hok : tm "table"
        { dataSource := arraySort (fun a b => cmp a.name b.name) (joinedRows names counts)
          columns := columns nts } = Except.ok ()) :
    ∃ rows, combinedData cmp names counts = Except.ok rows ∧
      rows = arraySort (fun a b => cmp a.name b.name) (joinedRows names counts) ∧
      loadData cmp nts (fulfilledAPI names counts first) tm
        = (Except.ok (), [Event.tableInstance "table"
            { dataSource := rows, columns := columns nts }]) ∧
      renderCalls (loadData cmp nts (fulfilledAPI names counts first) tm).2
        = [("table", { dataSource := rows, columns := columns nts })] ∧
      columns nts
        = [ { sourceField := "name", caption := "Name", format := none },
            { sourceField := "count", caption := "Count", format := none },
            { sourceField := "percentOfTotal", caption := "Percent of Total",
              format := some (fun value => toFixed nts (value.mul 100) 2 ++ "%") } ] ∧
      (columns nts).map (fun c => (c.sourceField, c.caption, c.format.isSome))
        = [("name", "Name", false), ("count", "Count", false),
           ("percentOfTotal", "Percent of Total", true)] := by
  refine ⟨_, combinedData_eq cmp names counts, rfl,
    loadData_fulfilled_of_ok cmp nts names counts first tm hok, ?_, rfl, rfl⟩
  rw [loadData_fulfilled_of_ok cmp nts names counts first tm hok]
  rfl

/-- Witness for C11 on the worked example with a returning table module. -/
theorem loadData_single_render_witness :
    returningTableModule "table"
        { dataSource := arraySort (fun a b => codePointCompare a.name b.name)
            (joinedRows exampleNames exampleCounts)
          columns := columns (fun _ => "") } = Except.ok () ∧
    ∃ rows, combinedData codePointCompare exampleNames exampleCounts = Except.ok rows ∧
      rows = arraySort (fun a b => codePointCompare a.name b.name)
        (joinedRows exampleNames exampleCounts) ∧
      loadData codePointCompare (fun _ => "") (fulfilledAPI exampleNames exampleCounts false)
          returningTableModule
        = (Except.ok (), [Event.tableInstance "table"
            { dataSource := rows, columns := columns (fun _ => "") }]) ∧
      renderCalls (loadData codePointCompare (fun _ => "")
          (fulfilledAPI exampleNames exampleCounts false) returningTableModule).2
        = [("table", { dataSource := rows, columns := columns (fun _ => "") })] ∧
      columns (fun _ => "")
        = [ { sourceField := "name", caption := "Name", format := none },
            { sourceField := "count", caption := "Count", format := none },
            { sourceField := "percentOfTotal", caption := "Percent of Total",
              format := some (fun value => toFixed (fun _ => "") (value.mul 100) 2 ++ "%") } ] ∧
      (columns (fun _ => "")).map (fun c => (c.sourceField, c.caption, c.format.isSome))
        = [("name", "Name", false), ("count", "Count", false),
           ("percentOfTotal", "Percent of Total", true)] :=
  ⟨rfl, loadData_single_render codePointCompare (fun _ => "") exampleNames exampleCounts
    false returningTableModule rfl⟩

/-- C13. Render failure propagates: when both fetches fulfil and the `instance` call
throws `e`, `loadData` rejects with the same `e` and does not fulfil; the call was made
once and the exception was logged before being thrown again. -/
theorem loadData_render_failure (cmp : String → String → Int) (nts : ℚ → String)
    (names : List NameRecord) (counts : List CountRecord) (first : Bool) (tm : TableModule)
    (e : Err)
    (h : tm "table"
        { dataSource := arraySort (fun a b => cmp a.name b.name) (joinedRows names counts)
          columns := columns nts } = Except.error e) :
    (loadData cmp nts (fulfilledAPI names counts first) tm).1 = Except.error e ∧
    (loadData cmp nts (fulfilledAPI names counts first) tm).1 ≠ Except.ok () ∧
    (loadData cmp nts (fulfilledAPI names counts first) tm).2
      = [Event.tableInstance "table"
          { dataSource := arraySort (fun a b => cmp a.name b.name) (joinedRows names counts)
            columns := columns nts }, Event.consoleError "Error loading data:" e] := by
  rw [loadData_fulfilled_of_error cmp nts names counts first tm e h]
  exact ⟨rfl, by simp, rfl⟩

/-- Witness for C13 on the worked example with a throwing table module. -/
theorem loadData_render_failure_witness :
    failingTableModule "table"
        { dataSource := arraySort (fun a b => codePointCompare a.name b.name)
            (joinedRows exampleNames exampleCounts)
          columns := columns (fun _ => "") } = Except.error "table container not found" ∧
    ((loadData codePointCompare (fun _ => "") (fulfilledAPI exampleNames exampleCounts false)
        failingTableModule).1 = Except.error "table container not found" ∧
    (loadData codePointCompare (fun _ => "") (fulfilledAPI exampleNames exampleCounts false)
        failingTableModule).1 ≠ Except.ok () ∧
    (loadData codePointCompare (fun _ => "") (fulfilledAPI exampleNames exampleCounts false)
        failingTableModule).2
      = [Event.tableInstance "table"
          { dataSource := arraySort (fun a b => codePointCompare a.name b.name)
              (joinedRows exampleNames exampleCounts)
            columns := columns (fun _ => "") },
         Event.consoleError "Error loading data:" "table container not found"]) :=
  ⟨rfl, loadData_render_failure codePointCompare (fun _ => "") exampleNames exampleCounts
    false failingTableModule "table container not found" rfl⟩

/-! ## Zero total -/

theorem namesMap_has_eq_decide_mem (names : List NameRecord) (k : Int) :
    (namesMap names).has k = decide (k ∈ names.map (fun n => n.id)) := by
  rw [Bool.eq_iff_iff, namesMap_has_iff]
  simp

theorem joinedRows_eq_filter_mem (names : List NameRecord) (counts : List CountRecord) :
    joinedRows names counts
      = (counts.filter (fun c => decide (c.id ∈ names.map (fun n => n.id)))).map
          (joinedRow names counts) := by
  simp only [joinedRows, namesMap_has_eq_decide_mem]

/-- C15. Without any uniqueness assumption, `combinedData`, the dataset handed to the
table module, is a permutation of the rows of the count records whose id occurs in the
name collection, taken in order; it has as many rows as there are such count records,
and an id of the name collection that occurs `k` times in the count collection is the
id of exactly `k` rows. -/
theorem combinedData_perm (cmp : String → String → Int) (nts : ℚ → String)
    (names : List NameRecord) (counts : List CountRecord) (first : Bool) (tm : TableModule) :
    ∃ rows, combinedData cmp names counts = Except.ok rows ∧
      renderedDatasets (loadData cmp nts (fulfilledAPI names counts first) tm).2 = [rows] ∧
      rows.Perm ((counts.filter (fun c => decide (c.id ∈ names.map (fun n => n.id)))).map
        (joinedRow names counts)) ∧
      rows.length
        = (counts.filter (fun c => decide (c.id ∈ names.map (fun n => n.id)))).length ∧
      ∀ i, i ∈ names.map (fun n => n.id) →
        rows.countP (fun r => r.id == i) = (counts.map (fun c => c.id)).count i := by
  have hperm : (arraySort (fun a b : JoinedRecord => cmp a.name b.name)
      (joinedRows names counts)).Perm
      ((counts.filter (fun c => decide (c.id ∈ names.map (fun n => n.id)))).map
        (joinedRow names counts)) := by
    rw [← joinedRows_eq_filter_mem]
    exact arraySort_perm _ _
  refine ⟨_, combinedData_eq cmp names counts,
    loadData_fulfilled_datasets cmp nts names counts first tm, hperm, ?_, ?_⟩
  · rw [hperm.length_eq, List.length_map]
  · intro i hi
    rw [hperm.countP_eq, List.countP_map, List.countP_filter, List.count, List.countP_map]
    apply List.countP_congr
    intro c _
    simp only [Function.comp_apply, joinedRow, Bool.and_eq_true, decide_eq_true_eq, beq_iff_eq]
    constructor
    · exact fun h => h.1
    · exact fun h => ⟨h, h ▸ hi⟩

/-! ## Dependence on the name collection -/

/-- The record returned by the lookup is the last one, in collection order, with the
key. -/
theorem namesMap_get_last (names : List NameRecord) (k : Int) (n : NameRecord)
    (h : (namesMap names).get k = some n) :
    ∃ pre post, names = pre ++ n :: post ∧ n.id = k ∧ ∀ m ∈ post, m.id ≠ k := by
  rw [namesMap_get, List.find?_eq_some] at h
  obtain ⟨hk, as, bs, hrev, has⟩ := h
  refine ⟨bs.reverse, as.reverse, ?_, by simpa using hk, ?_⟩
  · have := congrArg List.reverse hrev
    simpa using this
  · intro m hm
    have := has m (List.mem_reverse.mp hm)
    simpa using this

theorem joinedRows_congr (names names' : List NameRecord) (counts : List CountRecord)
    (hhas : ∀ k, (namesMap names).has k = (namesMap names').has k)
    (hget : ∀ k, (namesMap names).get k = (namesMap names').get k) :
    joinedRows names counts = joinedRows names' counts := by
  have hrow : joinedRow names counts = joinedRow names' counts := by
    funext c
    simp only [joinedRow, lookupName, hget]
  have hfil : (fun c : CountRecord => (namesMap names).has c.id)
      = fun c => (namesMap names').has c.id := by
    funext c
    exact hhas c.id
  simp only [joinedRows, hrow, hfil]

theorem length_joinedRows_congr (names names' : List NameRecord) (counts : List CountRecord)
    (hhas : ∀ k, (namesMap names).has k = (namesMap names').has k) :
    (joinedRows names counts).length = (joinedRows names' counts).length := by
  have hfil : (fun c : CountRecord => (namesMap names).has c.id)
      = fun c => (namesMap names').has c.id := by
    funext c
    exact hhas c.id
  simp only [joinedRows, List.length_map, hfil]

/-- C17. Duplicate name ids: every row of `combinedData`, the dataset handed to the
table module, carries the name of the last name record, in collection order, that has
the row's id; the number of rows is the same for every name collection with the same
set of ids, so repeating an id does not change it. With "Bob" then "Robert" for id 1,
the row is named "Robert". -/
theorem combinedData_duplicate_names (cmp : String → String → Int) (nts : ℚ → String)
    (names : List NameRecord) (counts : List CountRecord) (first : Bool) (tm : TableModule) :
    ∃ rows, combinedData cmp names counts = Except.ok rows ∧
      renderedDatasets (loadData cmp nts (fulfilledAPI names counts first) tm).2 = [rows] ∧
      (∀ r ∈ rows, ∃ pre n post, names = pre ++ n :: post ∧ n.id = r.id ∧
        (∀ m ∈ post, m.id ≠ r.id) ∧ r.name = n.name) ∧
      (∀ names' : List NameRecord,
        (∀ i, i ∈ names'.map (fun n => n.id) ↔ i ∈ names.map (fun n => n.id)) →
        ∃ rows', combinedData cmp names' counts = Except.ok rows' ∧
          rows'.length = rows.length) ∧
      combinedData cmp duplicateNames [{ id := 1, count := 30 }]
        = Except.ok [{ id := 1, name := "Robert", count := 30, percentOfTotal := Num.fin 1 }] := by
  refine ⟨_, combinedData_eq cmp names counts,
    loadData_fulfilled_datasets cmp nts names counts first tm, ?_, ?_, ?_⟩
  · intro r hr
    rw [mem_arraySort, mem_joinedRows] at hr
    obtain ⟨c, -, hhas, rfl⟩ := hr
    obtain ⟨n, hget, -, -⟩ := namesMap_get_of_has names c.id hhas
    obtain ⟨pre, post, hsplit, hid, hpost⟩ := namesMap_get_last names c.id n hget
    refine ⟨pre, n, post, hsplit, hid, hpost, ?_⟩
    simp only [joinedRow, lookupName, hget]
  · intro names' hids
    refine ⟨_, combinedData_eq cmp names' counts, ?_⟩
    rw [(arraySort_perm _ _).length_eq, (arraySort_perm _ _).length_eq]
    apply length_joinedRows_congr
    intro k
    rw [namesMap_has_eq_decide_mem, namesMap_has_eq_decide_mem]
    exact decide_eq_decide.mpr (hids k)
  · rw [combinedData_eq]
    have hrows : joinedRows duplicateNames [{ id := 1, count := 30 }]
        = [{ id := 1, name := "Robert", count := 30, percentOfTotal := Num.fin 1 }] := by
      decide!
    rw [hrows]
    rfl

theorem find?_id_of_nodup (l : List NameRecord) (h : (l.map (fun n => n.id)).Nodup)
    (n : NameRecord) (hn : n ∈ l) : l.find? (fun m => m.id == n.id) = some n := by
  induction l with
  | nil => simp at hn
  | cons a l ih =>
    rw [List.map_cons, List.nodup_cons] at h
    rcases List.mem_cons.mp hn with rfl | hmem
    · simp
    · have hne : a.id ≠ n.id := by
        intro heq
        exact h.1 (heq ▸ List.mem_map_of_mem (fun n => n.id) hmem)
      rw [List.find?_cons_of_neg _ (by simpa using hne)]
      exact ih h.2 hmem

theorem namesMap_get_perm (names names' : List NameRecord)
    (hn : (names.map (fun n => n.id)).Nodup) (hperm : names.Perm names') (k : Int) :
    (namesMap names).get k = (namesMap names').get k := by
  have hn' : (names'.map (fun n => n.id)).Nodup := (hperm.map _).nodup_iff.mp hn
  rw [namesMap_get, namesMap_get]
  by_cases hex : ∃ n ∈ names, n.id = k
  · obtain ⟨n, hmem, rfl⟩ := hex
    rw [find?_id_of_nodup names.reverse (by rw [List.map_reverse]; exact List.nodup_reverse.mpr hn)
        n (List.mem_reverse.mpr hmem),
      find?_id_of_nodup names'.reverse
        (by rw [List.map_reverse]; exact List.nodup_reverse.mpr hn')
        n (List.mem_reverse.mpr (hperm.mem_iff.mp hmem))]
  · have h1 : names.reverse.find? (fun n => n.id == k) = none := by
      rw [List.find?_eq_none]
      intro x hx hxk
      exact hex ⟨x, List.mem_reverse.mp hx, by simpa using hxk⟩
    have h2 : names'.reverse.find? (fun n => n.id == k) = none := by
      rw [List.find?_eq_none]
      intro x hx hxk
      exact hex ⟨x, hperm.mem_iff.mpr (List.mem_reverse.mp hx), by simpa using hxk⟩
    rw [h1, h2]

/-- C18. Independence from name order: for two name collections with unique ids that
are permutations of each other, `combinedData` is the same list, the same single
dataset is handed to the table module, and `loadData` behaves identically. -/
theorem combinedData_names_perm (cmp : String → String → Int) (nts : ℚ → String)
    (names names' : List NameRecord) (counts : List CountRecord) (first : Bool)
    (tm : TableModule)
    (hn : (names.map (fun n => n.id)).Nodup) (_ : (names'.map (fun n => n.id)).Nodup)
    (hperm : names.Perm names') :
    ∃ rows, combinedData cmp names counts = Except.ok rows ∧
      combinedData cmp names' counts = Except.ok rows ∧
      renderedDatasets (loadData cmp nts (fulfilledAPI names counts first) tm).2 = [rows] ∧
      renderedDatasets (loadData cmp nts (fulfilledAPI names' counts first) tm).2 = [rows] ∧
      loadData cmp nts (fulfilledAPI names counts first) tm
        = loadData cmp nts (fulfilledAPI names' counts first) tm := by
  have hrows : joinedRows names counts = joinedRows names' counts := by
    apply joinedRows_congr
    · intro k
      rw [namesMap_has_eq_decide_mem, namesMap_has_eq_decide_mem]
      exact decide_eq_decide.mpr (hperm.map _).mem_iff
    · exact namesMap_get_perm names names' hn hperm
  have hcd : combinedData cmp names counts = combinedData cmp names' counts := by
    rw [combinedData_eq, combinedData_eq, hrows]
  refine ⟨_, combinedData_eq cmp names counts, ?_,
    loadData_fulfilled_datasets cmp nts names counts first tm, ?_, ?_⟩
  · rw [← hcd, combinedData_eq]
  · rw [loadData_fulfilled_datasets, hrows]
  · simp only [loadData, loadDataTry, promiseAll, fulfilledAPI, hcd]

/-- Witness for C18: the names of the worked example and their reversal. -/
theorem combinedData_names_perm_witness :
    ((exampleNames.map (fun n => n.id)).Nodup ∧
      (exampleNames.reverse.map (fun n => n.id)).Nodup ∧
      exampleNames.Perm exampleNames.reverse) ∧
    ∃ rows, combinedData codePointCompare exampleNames exampleCounts = Except.ok rows ∧
      combinedData codePointCompare exampleNames.reverse exampleCounts = Except.ok rows ∧
      renderedDatasets (loadData codePointCompare (fun _ => "")
        (fulfilledAPI exampleNames exampleCounts false) returningTableModule).2 = [rows] ∧
      renderedDatasets (loadData codePointCompare (fun _ => "")
        (fulfilledAPI exampleNames.reverse exampleCounts false) returningTableModule).2
        = [rows] ∧
      loadData codePointCompare (fun _ => "") (fulfilledAPI exampleNames exampleCounts false)
          returningTableModule
        = loadData codePointCompare (fun _ => "")
          (fulfilledAPI exampleNames.reverse exampleCounts false) returningTableModule :=
  ⟨⟨by decide, by decide, (List.reverse_perm exampleNames).symm⟩,
    combinedData_names_perm codePointCompare (fun _ => "") exampleNames exampleNames.reverse
      exampleCounts false returningTableModule (by decide) (by decide)
      (List.reverse_perm exampleNames).symm⟩

/-! ## Sum of percentages -/

end LoadData
